import Mathlib

/-
Verification of the solana-tx-aggregator repository.

Shallow embedding of the program's data model and operations:
  * src/transaction_details.rs : `TransactionDetails`
  * src/aggregator.rs          : `SolanaAggregator::{fetch_transactions,
                                  process_signatures, fetch_and_process_transaction,
                                  update_last_signature}`
  * src/api.rs                 : `create_api` request handler
  * chrono date conversion used by src/api.rs (`DateTime::from_timestamp`,
    `date_naive`), implemented via the standard civil-from-days algorithm
    on the proleptic Gregorian calendar, which is what chrono implements.

External library parsers (`solana_sdk::signature::Signature::from_str`,
`chrono::NaiveDate::parse_from_str`) are opaque collaborators of this
program; they are taken as parameters of type `String → Option _`, and
concrete instances are supplied when evaluating on concrete inputs.

Rust panics (out-of-bounds indexing, `.unwrap()` / `.expect()` on `None`
or `Err`) are modelled by an explicit abort outcome (`Option.none` /
`ProcessOutcome.panicked`): a panicking path produces no result.
-/

namespace SolanaTxAggregator

/-- The stored record (src/transaction_details.rs, struct `TransactionDetails`). -/
structure TransactionDetails where
  sender : String
  receiver : String
  data : String
  timestamp : Int
deriving Repr, DecidableEq

/-- A parsed ledger signature (`solana_sdk::signature::Signature`), modelled
by its canonical string rendering; the base58 decoding performed by
`Signature::from_str` is a parameter wherever it is used. -/
abbrev Signature := String

/-- One compiled instruction of a raw message; the code reads only `data`. -/
structure UiCompiledInstruction where
  data : String
deriving Repr, DecidableEq

/-- A raw (non-parsed) transaction message; the fields the aggregator reads. -/
structure UiRawMessage where
  account_keys : List String
  instructions : List UiCompiledInstruction
deriving Repr, DecidableEq

/-- `solana_transaction_status::UiMessage`: raw or parsed. -/
inductive UiMessage where
  | raw (m : UiRawMessage)
  | parsed
deriving Repr, DecidableEq

/-- A JSON-encoded transaction; the code reads only `message`. -/
structure UiTransaction where
  message : UiMessage
deriving Repr, DecidableEq

/-- `solana_transaction_status::EncodedTransaction`: the `Json` case carries a
`UiTransaction`; `other` stands for the binary/accounts encodings the code
does not read. -/
inductive EncodedTransaction where
  | json (t : UiTransaction)
  | other
deriving Repr, DecidableEq

/-- `EncodedTransactionWithStatusMeta`; the code reads only `transaction`. -/
structure EncodedTransactionWithStatusMeta where
  transaction : EncodedTransaction
deriving Repr, DecidableEq

/-- The `get_transaction` response
(`EncodedConfirmedTransactionWithStatusMeta`): block time and the encoded
transaction. -/
structure EncodedConfirmedTransactionWithStatusMeta where
  block_time : Option Int
  transaction : EncodedTransactionWithStatusMeta
deriving Repr, DecidableEq

/-- One element of a signatures page
(`RpcConfirmedTransactionStatusWithSignature`); the code reads only the
`signature` string. -/
structure RpcConfirmedTransactionStatusWithSignature where
  signature : String
deriving Repr, DecidableEq

/-- The shared `HashMap<Signature, TransactionDetails>` store, modelled as an
association list with unique keys kept in insertion order.  Rust's `HashMap`
iterates in an unspecified order; theorems about values derived from
iteration order (`keys().last()`) rely only on facts valid for every order. -/
abbrev Store := List (Signature × TransactionDetails)

/-- `HashMap::get`. -/
def Store.get (m : Store) (k : Signature) : Option TransactionDetails :=
  (m.find? (fun p => decide (p.1 = k))).map (·.2)

/-- `HashMap::insert`: overwrites the value when the key is present,
otherwise adds a new entry. -/
def Store.insert (m : Store) (k : Signature) (v : TransactionDetails) : Store :=
  if (m.find? (fun p => decide (p.1 = k))).isSome then
    m.map (fun p => if p.1 = k then (k, v) else p)
  else
    m ++ [(k, v)]

/-- `HashMap::keys` as a list (in the model's iteration order). -/
def Store.keys (m : Store) : List Signature := m.map (·.1)

/-- `HashMap::values` as a list (in the model's iteration order). -/
def Store.values (m : Store) : List TransactionDetails := m.map (·.2)

/-- The adapter's answer to one `get_transaction` call: `ok` for `Ok(resp)`,
`err` for any `ClientError`. -/
inductive FetchResponse where
  | ok (t : EncodedConfirmedTransactionWithStatusMeta)
  | err
deriving Repr, DecidableEq

/-- Outcome of `fetch_and_process_transaction` for one signature:
`ok store'` models the function returning `Ok(())` with the store now
`store'`; `rpcErr` models `get_transaction(..)?` propagating a client
error (the caller logs it and continues); `panicked` models an
out-of-bounds index on `account_keys` / `instructions`, which aborts the
process. -/
inductive ProcessOutcome where
  | ok (store : Store)
  | rpcErr
  | panicked
deriving Repr, DecidableEq

/-- `SolanaAggregator::fetch_and_process_transaction`
(src/aggregator.rs lines 147-180): fetch one transaction, and when it is
JSON-encoded with a raw message, store sender = `account_keys[0]`,
receiver = `account_keys[1]`, data = `instructions[0].data`,
timestamp = `block_time.unwrap_or(0)`.  A JSON/raw record with fewer than
two account keys or no instruction hits an out-of-bounds index.  A
non-JSON encoding or a parsed message falls through and returns `Ok(())`
without inserting anything. -/
def fetch_and_process_transaction (store : Store) (signature : Signature)
    (resp : FetchResponse) : ProcessOutcome :=
  match resp with
  | .err => .rpcErr
  | .ok transaction =>
    let block_time := transaction.block_time.getD 0
    match transaction.transaction.transaction with
    | .json tx =>
      match tx.message with
      | .raw message =>
        match message.account_keys, message.instructions with
        | sender :: receiver :: _, instruction0 :: _ =>
          .ok (store.insert signature
            { sender := sender
              receiver := receiver
              data := instruction0.data
              timestamp := block_time })
        | _, _ => .panicked
      | .parsed => .ok store
    | .other => .ok store

/-- The response shapes that `fetch_and_process_transaction` actually stores:
the fetch succeeded and the record is JSON-encoded with a raw message
holding at least two account keys and at least one instruction. -/
def fetchParsedOk : FetchResponse → Bool
  | .err => false
  | .ok transaction =>
    match transaction.transaction.transaction with
    | .json tx =>
      match tx.message with
      | .raw message =>
        decide (2 ≤ message.account_keys.length) && !message.instructions.isEmpty
      | .parsed => false
    | .other => false

/-- One step of the `process_signatures` loop body
(src/aggregator.rs lines 128-137), threaded through a fold.  The
accumulator is `none` once a panic happened, otherwise the store so far
together with the trace of signatures attempted so far (in attempt
order).  `Signature::from_str(..).expect(..)` aborts on a string the
decoder rejects; a `fetch_and_process_transaction` error is logged and
the loop continues with the next signature. -/
def drainStep (sigFromStr : String → Option Signature)
    (fetch : Signature → FetchResponse)
    (acc : Option (Store × List Signature))
    (info : RpcConfirmedTransactionStatusWithSignature) :
    Option (Store × List Signature) :=
  match acc with
  | none => none
  | some (store, trace) =>
    match sigFromStr info.signature with
    | none => none
    | some signature =>
      match fetch_and_process_transaction store signature (fetch signature) with
      | .ok store' => some (store', trace ++ [signature])
      | .rpcErr => some (store, trace ++ [signature])
      | .panicked => none

/-- `SolanaAggregator::process_signatures` (src/aggregator.rs lines 124-138):
iterate the page in reverse (`signatures.iter().rev()`), parse each
signature string and process it.  Returns the final store and the list of
signatures attempted in attempt order, or `none` if a panic aborted the
drain. -/
def process_signatures (sigFromStr : String → Option Signature)
    (fetch : Signature → FetchResponse) (store : Store)
    (signatures : List RpcConfirmedTransactionStatusWithSignature) :
    Option (Store × List Signature) :=
  signatures.reverse.foldl (drainStep sigFromStr fetch) (some (store, []))

/-- `SolanaAggregator::update_last_signature` (src/aggregator.rs lines
188-191): `transactions.keys().last().cloned()`.  The model returns the
last key in the model's iteration order; Rust's `HashMap` yields an
unspecified order, so only order-independent consequences (the result is
a key of the map, or `none` when the map is empty) transfer to the code. -/
def update_last_signature (store : Store) : Option Signature :=
  store.keys.getLast?

/-- The result of one `fetch_signatures` call in the polling loop. -/
inductive SignaturesResult where
  | ok (signatures : List RpcConfirmedTransactionStatusWithSignature)
  | err
deriving Repr, DecidableEq

/-- The loop-carried state of `fetch_transactions`: the shared store and the
`last_signature` cursor. -/
structure LoopState where
  transactions : Store
  last_signature : Option Signature
deriving Repr, DecidableEq

/-- One iteration of the `fetch_transactions` loop (src/aggregator.rs lines
65-79): on `Ok(signatures)` drain the page and recompute the cursor from
the store; on `Err` log and leave both the store and the cursor unchanged
(the loop then sleeps and retries).  `none` models a panic during the
drain. -/
def loop_iteration (sigFromStr : String → Option Signature)
    (fetch : Signature → FetchResponse) (s : LoopState)
    (res : SignaturesResult) : Option LoopState :=
  match res with
  | .err => some s
  | .ok signatures =>
    match process_signatures sigFromStr fetch s.transactions signatures with
    | none => none
    | some (store', _) =>
      some { transactions := store', last_signature := update_last_signature store' }

/-- Run the ingestion loop over a whole sequence of successful pages, from a
given starting state. -/
def run_pages (sigFromStr : String → Option Signature)
    (fetch : Signature → FetchResponse)
    (pages : List (List RpcConfirmedTransactionStatusWithSignature))
    (s : LoopState) : Option LoopState :=
  pages.foldl
    (fun acc page => acc.bind (fun st => loop_iteration sigFromStr fetch st (.ok page)))
    (some s)

/-- The loop state at process start: empty store, no cursor
(src/aggregator.rs lines 49-52 and 63). -/
def initialState : LoopState := { transactions := [], last_signature := none }

/-- A proleptic Gregorian calendar date (`chrono::NaiveDate`). -/
structure NaiveDate where
  year : Int
  month : Nat
  day : Nat
deriving Repr, DecidableEq

/-- Convert a count of days since 1970-01-01 to a civil date, the standard
civil-from-days algorithm on the proleptic Gregorian calendar (what chrono
computes for `date_naive`). -/
def civilFromDays (z : Int) : NaiveDate :=
  let z := z + 719468
  let era : Int := Int.ediv z 146097
  let doe : Int := z - era * 146097
  let yoe : Int :=
    Int.ediv (doe - Int.ediv doe 1460 + Int.ediv doe 36524 - Int.ediv doe 146096) 365
  let y : Int := yoe + era * 400
  let doy : Int := doe - (365 * yoe + Int.ediv yoe 4 - Int.ediv yoe 100)
  let mp : Int := Int.ediv (5 * doy + 2) 153
  let d : Int := doy - Int.ediv (153 * mp + 2) 5 + 1
  let m : Int := mp + (if mp < 10 then 3 else -9)
  { year := y + (if m ≤ 2 then 1 else 0), month := m.toNat, day := d.toNat }

/-- `chrono::DateTime::from_timestamp(secs, 0).map(|dt| dt.date_naive())`:
the UTC calendar date of a Unix timestamp, `none` when the timestamp falls
outside chrono's representable year range (about ±262,000 years from the
common era), in which case the `.unwrap()` in src/api.rs panics. -/
def from_timestamp_date (secs : Int) : Option NaiveDate :=
  let date := civilFromDays (Int.ediv secs 86400)
  if -262144 ≤ date.year ∧ date.year ≤ 262143 then some date else none

/-- The replies `create_api` can produce, one constructor per
`warp::reply::json(..)` call site in src/api.rs: the stored detail, JSON
`null` (id present but not found), a JSON array of details (day query), or
a JSON string (the invalid-parameters sentinel). -/
inductive Reply where
  | jsonDetail (t : TransactionDetails)
  | jsonNull
  | jsonList (ts : List TransactionDetails)
  | jsonString (s : String)
deriving Repr, DecidableEq

/-- `warp::reply::json` replies carry HTTP status 200. -/
def Reply.statusCode : Reply → Nat := fun _ => 200

/-- The query parameters the handler reads from the request's
`HashMap<String, String>`: the values at keys "id" and "day". -/
structure QueryParams where
  id : Option String
  day : Option String
deriving Repr, DecidableEq

/-- The body of the request closure built by `create_api` (src/api.rs lines
25-56), run with the store mutex guard already acquired (the lock at line
28 precedes both parses).  `sigFromStr` is `Signature::from_str`,
`parseDay` is `chrono::NaiveDate::parse_from_str(day, "%d/%m/%Y")`; both
`.expect` calls panic on a parse failure, modelled as `none`.  The day
filter `.unwrap()`s `DateTime::from_timestamp` on every stored timestamp,
so a stored timestamp outside chrono's range also panics (`none`).  Any
such panic unwinds while the guard is held; lock acquisition and the
resulting mutex poisoning are modelled by `api_request` below. -/
def create_api_handler (sigFromStr : String → Option Signature)
    (parseDay : String → Option NaiveDate)
    (store : Store) (params : QueryParams) : Option Reply :=
  match params.id with
  | some idStr =>
    match sigFromStr idStr with
    | none => none
    | some signature =>
      match store.get signature with
      | some transaction => some (.jsonDetail transaction)
      | none => some .jsonNull
  | none =>
    match params.day with
    | some dayStr =>
      match parseDay dayStr with
      | none => none
      | some date =>
        if store.values.all (fun t => (from_timestamp_date t.timestamp).isSome) then
          some (.jsonList (store.values.filter
            (fun t => decide (from_timestamp_date t.timestamp = some date))))
        else none
    | none => some (.jsonString "Invalid query parameters")

/-- The shared `Arc<Mutex<HashMap<..>>>` as seen by a lock site: the store
contents together with the mutex's poisoned flag.  A Rust `std::sync`
mutex becomes poisoned when a thread panics while holding its guard;
every later `lock().unwrap()` then panics. -/
structure SharedStore where
  store : Store
  poisoned : Bool
deriving Repr, DecidableEq

/-- One API request against the shared store (src/api.rs lines 25-56): the
handler first acquires the lock with `lock().unwrap()` (line 28), which
panics at once if the mutex is poisoned; otherwise the closure body runs
while the guard is held, so a panic inside it (parse failure at lines
32/42, or the day filter's timestamp `.unwrap()` at lines 46-47) unwinds
with the guard held and poisons the mutex.  Returns the reply (`none`
when the request aborted in a panic) and the mutex state afterwards. -/
def api_request (sigFromStr : String → Option Signature)
    (parseDay : String → Option NaiveDate)
    (st : SharedStore) (params : QueryParams) : Option Reply × SharedStore :=
  if st.poisoned then (none, st)
  else
    match create_api_handler sigFromStr parseDay st.store params with
    | none => (none, { store := st.store, poisoned := true })
    | some r => (some r, st)

/-- The ingestion loop's store insert (src/aggregator.rs lines 174-175):
`transactions.lock().unwrap()` followed by the insert.  On a poisoned
mutex the unwrap panics and the ingestion loop dies (`none`). -/
def aggregator_insert (st : SharedStore) (sig : Signature)
    (d : TransactionDetails) : Option SharedStore :=
  if st.poisoned then none
  else some { store := st.store.insert sig d, poisoned := st.poisoned }

/-- The lock acquisition inside `update_last_signature`
(src/aggregator.rs line 189): `transactions.lock().unwrap()` panics on a
poisoned mutex (`none`); otherwise the cursor is read as usual. -/
def update_last_signature_locked (st : SharedStore) : Option (Option Signature) :=
  if st.poisoned then none else some (update_last_signature st.store)

/-- Signature decoder used when evaluating the model on concrete inputs; it
stands for `Signature::from_str`, accepting the two example signature
strings and rejecting everything else. -/
def exSigFromStr : String → Option Signature :=
  fun s => if s = "SIGA" ∨ s = "SIGB" then some s else none

/-- Date parser used when evaluating the model on concrete inputs; it stands
for `NaiveDate::parse_from_str(_, "%d/%m/%Y")` on the two example date
strings. -/
def exParseDay : String → Option NaiveDate :=
  fun s =>
    if s = "03/05/2021" then some { year := 2021, month := 5, day := 3 }
    else if s = "01/01/1970" then some { year := 1970, month := 1, day := 1 }
    else none

/-- Fetch oracle used in concrete evaluations: "SIGA" resolves to a
well-shaped JSON/raw record at block time 1620000000; every other
signature yields a client error. -/
def exFetch : Signature → FetchResponse :=
  fun s =>
    if s = "SIGA" then
      FetchResponse.ok
        ⟨some 1620000000,
         ⟨EncodedTransaction.json ⟨UiMessage.raw ⟨["S1", "R1"], [⟨"D1"⟩]⟩⟩⟩⟩
    else FetchResponse.err

/-- The adapter page used in concrete evaluations, newest first as the RPC
returns it: "SIGB" (newest) precedes "SIGA" (oldest). -/
def exPage : List RpcConfirmedTransactionStatusWithSignature :=
  [{ signature := "SIGB" }, { signature := "SIGA" }]

/-- The record built from `exFetch "SIGA"`. -/
def exDetail : TransactionDetails :=
  { sender := "S1", receiver := "R1", data := "D1", timestamp := 1620000000 }

/-- The lookup used by `Store.insert` succeeds exactly when the key is
already in the store. -/
theorem Store.find?_isSome_iff (m : Store) (k : Signature) :
    (m.find? (fun p => decide (p.1 = k))).isSome = true ↔ k ∈ m.keys := by
  rw [List.find?_isSome]
  constructor
  · rintro ⟨p, hpm, hpk⟩
    simp only [decide_eq_true_eq] at hpk
    exact hpk ▸ List.mem_map.mpr ⟨p, hpm, rfl⟩
  · intro hk
    obtain ⟨p, hpm, hpk⟩ := List.mem_map.mp hk
    exact ⟨p, hpm, by simp [hpk]⟩

/-- Key membership after a store insert: the new key set is the old one plus
the inserted key. -/
theorem Store.mem_keys_insert (m : Store) (k : Signature) (v : TransactionDetails)
    (a : Signature) : a ∈ (m.insert k v).keys ↔ a ∈ m.keys ∨ a = k := by
  unfold Store.insert
  by_cases hk : k ∈ m.keys
  · rw [if_pos ((Store.find?_isSome_iff m k).mpr hk)]
    have hkeys : Store.keys (m.map (fun p => if p.1 = k then (k, v) else p))
        = Store.keys m := by
      simp only [Store.keys, List.map_map]
      refine List.map_congr_left ?_
      intro p _
      by_cases h : p.1 = k <;> simp [h]
    rw [hkeys]
    constructor
    · exact Or.inl
    · rintro (h | rfl)
      · exact h
      · exact hk
  · rw [if_neg (fun h => hk ((Store.find?_isSome_iff m k).mp h))]
    simp [Store.keys]

/-- A value in the store after an insert was either there before or is the
inserted value. -/
theorem Store.mem_values_insert (m : Store) (k : Signature) (v : TransactionDetails)
    (t : TransactionDetails) (h : t ∈ (m.insert k v).values) : t ∈ m.values ∨ t = v := by
  unfold Store.insert at h
  by_cases hk : k ∈ m.keys
  · rw [if_pos ((Store.find?_isSome_iff m k).mpr hk)] at h
    obtain ⟨q, hq, hqt⟩ := List.mem_map.mp h
    obtain ⟨p, hpm, hpq⟩ := List.mem_map.mp hq
    subst hpq
    by_cases hpk : p.1 = k
    · rw [if_pos hpk] at hqt
      exact Or.inr hqt.symm
    · rw [if_neg hpk] at hqt
      exact Or.inl (List.mem_map.mpr ⟨p, hpm, hqt⟩)
  · rw [if_neg (fun hc => hk ((Store.find?_isSome_iff m k).mp hc))] at h
    simp only [Store.values, List.map_append, List.mem_append,
      List.map_cons, List.map_nil, List.mem_singleton] at h
    exact h

/-- The inserted value is among the store's values after the insert. -/
theorem Store.self_mem_values_insert (m : Store) (k : Signature)
    (v : TransactionDetails) : v ∈ (m.insert k v).values := by
  unfold Store.insert
  by_cases hk : k ∈ m.keys
  · rw [if_pos ((Store.find?_isSome_iff m k).mpr hk)]
    obtain ⟨p, hpm, hpk⟩ := List.mem_map.mp hk
    apply List.mem_map.mpr
    refine ⟨(k, v), ?_, rfl⟩
    exact List.mem_map.mpr ⟨p, hpm, by simp [hpk]⟩
  · rw [if_neg (fun hc => hk ((Store.find?_isSome_iff m k).mp hc))]
    simp [Store.values]

/-- When `fetch_and_process_transaction` returns `Ok(())`, the store's key
set gained exactly the processed signature when the response had the
storable shape, and is unchanged otherwise. -/
theorem fap_keys_ok (store : Store) (sig : Signature) (resp : FetchResponse)
    (store' : Store)
    (h : fetch_and_process_transaction store sig resp = .ok store') :
    ∀ a, a ∈ store'.keys ↔ a ∈ store.keys ∨ (a = sig ∧ fetchParsedOk resp = true) := by
  intro a
  match resp with
  | .err => simp [fetch_and_process_transaction] at h
  | .ok t =>
    match htx : t.transaction.transaction with
    | .other =>
      simp only [fetch_and_process_transaction, htx, ProcessOutcome.ok.injEq] at h
      subst h
      simp [fetchParsedOk, htx]
    | .json tx =>
      match hm : tx.message with
      | .parsed =>
        simp only [fetch_and_process_transaction, htx, hm, ProcessOutcome.ok.injEq] at h
        subst h
        simp [fetchParsedOk, htx, hm]
      | .raw msg =>
        match hk : msg.account_keys, hi : msg.instructions with
        | [], _ => simp [fetch_and_process_transaction, htx, hm, hk] at h
        | [_], _ => simp [fetch_and_process_transaction, htx, hm, hk] at h
        | _ :: _ :: _, [] => simp [fetch_and_process_transaction, htx, hm, hk, hi] at h
        | s0 :: r0 :: rest, i0 :: irest =>
          simp only [fetch_and_process_transaction, htx, hm, hk, hi,
            ProcessOutcome.ok.injEq] at h
          subst h
          rw [Store.mem_keys_insert]
          simp [fetchParsedOk, htx, hm, hk, hi]

/-- When `fetch_and_process_transaction` propagates a client error, the
response was not storable. -/
theorem fap_rpcErr (store : Store) (sig : Signature) (resp : FetchResponse)
    (h : fetch_and_process_transaction store sig resp = .rpcErr) :
    fetchParsedOk resp = false := by
  match resp with
  | .err => rfl
  | .ok t =>
    match htx : t.transaction.transaction with
    | .other => simp [fetch_and_process_transaction, htx] at h
    | .json tx =>
      match hm : tx.message with
      | .parsed => simp [fetch_and_process_transaction, htx, hm] at h
      | .raw msg =>
        match hk : msg.account_keys, hi : msg.instructions with
        | [], _ => simp [fetch_and_process_transaction, htx, hm, hk] at h
        | [_], _ => simp [fetch_and_process_transaction, htx, hm, hk] at h
        | _ :: _ :: _, [] => simp [fetch_and_process_transaction, htx, hm, hk, hi] at h
        | _ :: _ :: _, _ :: _ => simp [fetch_and_process_transaction, htx, hm, hk, hi] at h

/-- Folding `drainStep` from a dead (panicked) accumulator stays dead. -/
theorem drain_none (sigFromStr : String → Option Signature)
    (fetch : Signature → FetchResponse)
    (infos : List RpcConfirmedTransactionStatusWithSignature) :
    infos.foldl (drainStep sigFromStr fetch) none = none := by
  induction infos with
  | nil => rfl
  | cons info rest ih => rw [List.foldl_cons]; exact ih

/-- Key-set invariant of the drain fold: when the fold over a list of
signature infos completes without panicking, the final key set is the
starting key set plus exactly those parsed identifiers from the list whose
fetched response was storable. -/
theorem drain_keys (sigFromStr : String → Option Signature)
    (fetch : Signature → FetchResponse)
    (infos : List RpcConfirmedTransactionStatusWithSignature)
    (store : Store) (trace : List Signature)
    (store' : Store) (trace' : List Signature)
    (h : infos.foldl (drainStep sigFromStr fetch) (some (store, trace))
      = some (store', trace')) :
    ∀ a, a ∈ store'.keys ↔ a ∈ store.keys ∨
      ∃ info ∈ infos, sigFromStr info.signature = some a
        ∧ fetchParsedOk (fetch a) = true := by
  induction infos generalizing store trace with
  | nil =>
    simp only [List.foldl_nil, Option.some.injEq, Prod.mk.injEq] at h
    obtain ⟨h1, _⟩ := h
    subst h1
    simp
  | cons info rest ih =>
    rw [List.foldl_cons] at h
    cases hs : sigFromStr info.signature with
    | none =>
      rw [show drainStep sigFromStr fetch (some (store, trace)) info = none from by
        simp [drainStep, hs]] at h
      rw [drain_none] at h
      exact absurd h (by simp)
    | some sig =>
      cases hp : fetch_and_process_transaction store sig (fetch sig) with
      | panicked =>
        rw [show drainStep sigFromStr fetch (some (store, trace)) info = none from by
          simp [drainStep, hs, hp]] at h
        rw [drain_none] at h
        exact absurd h (by simp)
      | ok store1 =>
        rw [show drainStep sigFromStr fetch (some (store, trace)) info
            = some (store1, trace ++ [sig]) from by simp [drainStep, hs, hp]] at h
        intro a
        rw [ih store1 (trace ++ [sig]) h a, fap_keys_ok store sig (fetch sig) store1 hp a,
          List.exists_mem_cons_iff]
        constructor
        · rintro ((ha | ⟨rfl, hok⟩) | hex)
          · exact Or.inl ha
          · exact Or.inr (Or.inl ⟨hs, hok⟩)
          · exact Or.inr (Or.inr hex)
        · rintro (ha | ⟨hfi, hok⟩ | hex)
          · exact Or.inl (Or.inl ha)
          · have hsa : sig = a := by rw [hs] at hfi; exact Option.some.inj hfi
            subst hsa
            exact Or.inl (Or.inr ⟨rfl, hok⟩)
          · exact Or.inr hex
      | rpcErr =>
        rw [show drainStep sigFromStr fetch (some (store, trace)) info
            = some (store, trace ++ [sig]) from by simp [drainStep, hs, hp]] at h
        intro a
        rw [ih store (trace ++ [sig]) h a, List.exists_mem_cons_iff]
        constructor
        · rintro (ha | hex)
          · exact Or.inl ha
          · exact Or.inr (Or.inr hex)
        · rintro (ha | ⟨hfi, hok⟩ | hex)
          · exact Or.inl ha
          · have hsa : sig = a := by rw [hs] at hfi; exact Option.some.inj hfi
            subst hsa
            rw [fap_rpcErr store sig (fetch sig) hp] at hok
            exact absurd hok (by simp)
          · exact Or.inr hex

/-- Trace invariant of the drain fold: when the fold completes without
panicking, every signature string in the list parses, and the attempt
trace extends the starting trace with the parsed signatures in list
order. -/
theorem drain_trace (sigFromStr : String → Option Signature)
    (fetch : Signature → FetchResponse)
    (infos : List RpcConfirmedTransactionStatusWithSignature)
    (store : Store) (trace : List Signature)
    (store' : Store) (trace' : List Signature)
    (h : infos.foldl (drainStep sigFromStr fetch) (some (store, trace))
      = some (store', trace')) :
    trace' = trace ++ infos.filterMap (fun i => sigFromStr i.signature)
    ∧ ∀ i ∈ infos, (sigFromStr i.signature).isSome = true := by
  induction infos generalizing store trace with
  | nil =>
    simp only [List.foldl_nil, Option.some.injEq, Prod.mk.injEq] at h
    obtain ⟨_, h2⟩ := h
    subst h2
    simp
  | cons info rest ih =>
    rw [List.foldl_cons] at h
    cases hs : sigFromStr info.signature with
    | none =>
      rw [show drainStep sigFromStr fetch (some (store, trace)) info = none from by
        simp [drainStep, hs]] at h
      rw [drain_none] at h
      exact absurd h (by simp)
    | some sig =>
      cases hp : fetch_and_process_transaction store sig (fetch sig) with
      | panicked =>
        rw [show drainStep sigFromStr fetch (some (store, trace)) info = none from by
          simp [drainStep, hs, hp]] at h
        rw [drain_none] at h
        exact absurd h (by simp)
      | ok store1 =>
        rw [show drainStep sigFromStr fetch (some (store, trace)) info
            = some (store1, trace ++ [sig]) from by simp [drainStep, hs, hp]] at h
        obtain ⟨h1, h2⟩ := ih store1 (trace ++ [sig]) h
        constructor
        · rw [h1, List.filterMap_cons, hs, List.append_assoc]
          rfl
        · intro i hi
          rcases List.mem_cons.mp hi with rfl | hi
          · simp [hs]
          · exact h2 i hi
      | rpcErr =>
        rw [show drainStep sigFromStr fetch (some (store, trace)) info
            = some (store, trace ++ [sig]) from by simp [drainStep, hs, hp]] at h
        obtain ⟨h1, h2⟩ := ih store (trace ++ [sig]) h
        constructor
        · rw [h1, List.filterMap_cons, hs, List.append_assoc]
          rfl
        · intro i hi
          rcases List.mem_cons.mp hi with rfl | hi
          · simp [hs]
          · exact h2 i hi

/-- Folding pages from a dead (panicked) loop state stays dead. -/
theorem run_pages_none (sigFromStr : String → Option Signature)
    (fetch : Signature → FetchResponse)
    (pages : List (List RpcConfirmedTransactionStatusWithSignature)) :
    pages.foldl
      (fun acc page => acc.bind
        (fun st => loop_iteration sigFromStr fetch st (.ok page)))
      none = none := by
  induction pages with
  | nil => rfl
  | cons page rest ih => rw [List.foldl_cons]; exact ih

/-- Key-set invariant over a whole sequence of successful pages: starting
from any state, after draining the sequence the key set is the starting
key set plus exactly the storable identifiers of the sequence. -/
theorem run_pages_keys (sigFromStr : String → Option Signature)
    (fetch : Signature → FetchResponse)
    (pages : List (List RpcConfirmedTransactionStatusWithSignature))
    (s s' : LoopState)
    (h : run_pages sigFromStr fetch pages s = some s') :
    ∀ a, a ∈ s'.transactions.keys ↔ a ∈ s.transactions.keys ∨
      ∃ info ∈ pages.flatten, sigFromStr info.signature = some a
        ∧ fetchParsedOk (fetch a) = true := by
  induction pages generalizing s with
  | nil =>
    rw [run_pages, List.foldl_nil] at h
    obtain rfl := Option.some.inj h
    simp
  | cons page rest ih =>
    rw [run_pages, List.foldl_cons] at h
    cases h1 : loop_iteration sigFromStr fetch s (.ok page) with
    | none =>
      rw [show (some s).bind (fun st => loop_iteration sigFromStr fetch st (.ok page))
          = none from by simp [h1]] at h
      rw [run_pages_none] at h
      exact absurd h (by simp)
    | some s1 =>
      rw [show (some s).bind (fun st => loop_iteration sigFromStr fetch st (.ok page))
          = some s1 from by simp [h1]] at h
      intro a
      have hrest := ih s1 h a
      rw [loop_iteration] at h1
      cases h2 : process_signatures sigFromStr fetch s.transactions page with
      | none => rw [h2] at h1; exact absurd h1 (by simp)
      | some p =>
        rw [h2] at h1
        obtain ⟨store1, trace1⟩ := p
        obtain rfl := Option.some.inj h1
        have hpage := drain_keys sigFromStr fetch page.reverse s.transactions []
          store1 trace1 h2 a
        rw [hrest]
        simp only at hpage
        rw [hpage, List.flatten_cons]
        constructor
        · rintro ((ha | ⟨info, hin, hprop⟩) | hex)
          · exact Or.inl ha
          · exact Or.inr ⟨info, List.mem_append.mpr
              (Or.inl (List.mem_reverse.mp hin)), hprop⟩
          · obtain ⟨info, hin, hprop⟩ := hex
            exact Or.inr ⟨info, List.mem_append.mpr (Or.inr hin), hprop⟩
        · rintro (ha | ⟨info, hin, hprop⟩)
          · exact Or.inl (Or.inl ha)
          · rcases List.mem_append.mp hin with hin | hin
            · exact Or.inl (Or.inr ⟨info, List.mem_reverse.mpr hin, hprop⟩)
            · exact Or.inr ⟨info, hin, hprop⟩

/-- C1: for every sequence of pages returned by the adapter, after the
ingestion loop drains them (starting from the empty store at process
start and completing without a panic), the store's key set equals exactly
the set of identifiers in those pages for which the detail fetch succeeded
and the record parsed into the expected JSON/raw shape; every identifier
whose fetch failed or whose record was malformed is absent from the
store. -/
theorem C1_store_keys_exact (sigFromStr : String → Option Signature)
    (fetch : Signature → FetchResponse)
    (pages : List (List RpcConfirmedTransactionStatusWithSignature))
    (s' : LoopState)
    (h : run_pages sigFromStr fetch pages initialState = some s') :
    ∀ sig, sig ∈ s'.transactions.keys ↔
      (∃ info ∈ pages.flatten, sigFromStr info.signature = some sig)
        ∧ fetchParsedOk (fetch sig) = true := by
  intro sig
  rw [run_pages_keys sigFromStr fetch pages initialState s' h sig]
  simp only [initialState, Store.keys, List.map_nil, List.not_mem_nil, false_or]
  constructor
  · rintro ⟨info, hin, hparse, hok⟩
    exact ⟨⟨info, hin, hparse⟩, hok⟩
  · rintro ⟨⟨info, hin, hparse⟩, hok⟩
    exact ⟨info, hin, hparse, hok⟩

/-- C1 witness: draining the example page (fetch of "SIGA" succeeds and
parses, fetch of "SIGB" fails) from the start state stores exactly
"SIGA". -/
theorem C1_witness :
    (run_pages exSigFromStr exFetch [exPage] initialState
      = some (LoopState.mk [("SIGA", exDetail)] (some "SIGA")))
    ∧ ∀ sig,
        sig ∈ (LoopState.mk [("SIGA", exDetail)] (some "SIGA")).transactions.keys ↔
          (∃ info ∈ [exPage].flatten, exSigFromStr info.signature = some sig)
            ∧ fetchParsedOk (exFetch sig) = true :=
  ⟨by decide, fun sig => C1_store_keys_exact exSigFromStr exFetch [exPage]
    (LoopState.mk [("SIGA", exDetail)] (some "SIGA")) (by decide) sig⟩

/-- C2 counterexample: the claim says the cursor for the next poll is the
last identifier attempted in the page, whether its fetch succeeded or
failed.  On the example page the identifiers are attempted in the order
"SIGA" then "SIGB" (the page lists newest first), so the last attempted
identifier is "SIGB", whose fetch fails; yet after the iteration the
cursor is "SIGA", a key of the store, because `update_last_signature`
reads `transactions.keys().last()` and failed identifiers are never
inserted. -/
theorem C2_counterexample :
    (loop_iteration exSigFromStr exFetch initialState (.ok exPage)).map
        (fun s => s.last_signature) = some (some "SIGA")
    ∧ (process_signatures exSigFromStr exFetch [] exPage).map
        (fun p => p.2.getLast?) = some (some "SIGB")
    ∧ ("SIGA" : String) ≠ "SIGB" := by
  refine ⟨by decide, by decide, by decide⟩

/-- C2 amended: after a loop iteration drains a page, the cursor is
recomputed from the store's keys — it is some key of the store (hence an
identifier whose fetch succeeded and was inserted, in this or an earlier
page; with Rust's `HashMap` an unspecified one), or `None` when the store
is empty.  It is not in general the last identifier attempted in the
page. -/
theorem C2_cursor_from_store_keys (sigFromStr : String → Option Signature)
    (fetch : Signature → FetchResponse)
    (page : List RpcConfirmedTransactionStatusWithSignature)
    (s s' : LoopState)
    (h : loop_iteration sigFromStr fetch s (.ok page) = some s') :
    (∀ sig, s'.last_signature = some sig → sig ∈ s'.transactions.keys)
    ∧ (s'.transactions = [] → s'.last_signature = none) := by
  rw [loop_iteration] at h
  cases h2 : process_signatures sigFromStr fetch s.transactions page with
  | none => rw [h2] at h; exact absurd h (by simp)
  | some p =>
    rw [h2] at h
    obtain ⟨store1, trace1⟩ := p
    obtain rfl := Option.some.inj h
    constructor
    · intro sig hsig
      simp only [update_last_signature] at hsig
      obtain ⟨hne, heq⟩ := List.mem_getLast?_eq_getLast
        (show sig ∈ (Store.keys store1).getLast? from hsig)
      exact heq ▸ List.getLast_mem hne
    · intro hemp
      have hemp' : store1 = [] := hemp
      subst hemp'
      rfl

/-- C2 amended witness: on the example page the iteration succeeds and the
cursor ends up a key of the store. -/
theorem C2_cursor_witness :
    (loop_iteration exSigFromStr exFetch initialState (.ok exPage)
      = some (LoopState.mk [("SIGA", exDetail)] (some "SIGA")))
    ∧ ((∀ sig, (LoopState.mk [("SIGA", exDetail)] (some "SIGA")).last_signature
          = some sig →
          sig ∈ (LoopState.mk [("SIGA", exDetail)] (some "SIGA")).transactions.keys)
      ∧ ((LoopState.mk [("SIGA", exDetail)] (some "SIGA")).transactions = [] →
          (LoopState.mk [("SIGA", exDetail)] (some "SIGA")).last_signature = none)) :=
  ⟨by decide, C2_cursor_from_store_keys exSigFromStr exFetch exPage initialState
    (LoopState.mk [("SIGA", exDetail)] (some "SIGA")) (by decide)⟩

/-- C3 (code bug evidence): a fetched record that is JSON-encoded with a raw
message but lacks a second participant address, or lacks a first
instruction, makes `fetch_and_process_transaction` hit an out-of-bounds
index (`account_keys[1]` / `instructions[0]`) and panic, aborting the
ingestion loop — instead of logging, skipping the record and continuing as
the specification's `Malformed` handling requires.  Nothing is inserted on
either input. -/
theorem C3_malformed_record_panics :
    fetch_and_process_transaction [] "SIGA"
      (FetchResponse.ok ⟨some 5,
        ⟨EncodedTransaction.json ⟨UiMessage.raw ⟨["A1"], [⟨"D1"⟩]⟩⟩⟩⟩)
      = .panicked
    ∧ fetch_and_process_transaction [] "SIGA"
      (FetchResponse.ok ⟨some 5,
        ⟨EncodedTransaction.json ⟨UiMessage.raw ⟨["A1", "A2"], []⟩⟩⟩⟩)
      = .panicked := by
  refine ⟨by decide, by decide⟩

/-- C5: when `fetch_signatures` (the signature-listing call) returns an
error, the loop iteration logs it and changes nothing: the store is not
written, the cursor is left unchanged, and the loop continues (the
iteration yields the same state and the loop then sleeps for the fixed
delay and retries); no such error terminates the loop. -/
theorem C5_listing_error_keeps_state (sigFromStr : String → Option Signature)
    (fetch : Signature → FetchResponse) (s : LoopState) :
    loop_iteration sigFromStr fetch s .err = some s
    ∧ (loop_iteration sigFromStr fetch s .err).map (fun t => t.transactions)
        = some s.transactions
    ∧ (loop_iteration sigFromStr fetch s .err).map (fun t => t.last_signature)
        = some s.last_signature :=
  ⟨rfl, rfl, rfl⟩

/-- C7: when a page drains without a panic, every signature string in the
page parses, and the identifiers are attempted exactly in the reverse of
the order in which the adapter returned them (the adapter paginates
backward, newest first, and `process_signatures` iterates with
`.rev()`). -/
theorem C7_drain_order_reversed (sigFromStr : String → Option Signature)
    (fetch : Signature → FetchResponse) (store : Store)
    (page : List RpcConfirmedTransactionStatusWithSignature)
    (store' : Store) (trace : List Signature)
    (h : process_signatures sigFromStr fetch store page = some (store', trace)) :
    trace = page.reverse.filterMap (fun i => sigFromStr i.signature)
    ∧ ∀ i ∈ page, (sigFromStr i.signature).isSome = true := by
  obtain ⟨h1, h2⟩ := drain_trace sigFromStr fetch page.reverse store [] store' trace h
  refine ⟨by simpa using h1, ?_⟩
  intro i hi
  exact h2 i (List.mem_reverse.mpr hi)

/-- C7 witness: the example page [SIGB, SIGA] (newest first) is attempted
in the order SIGA then SIGB. -/
theorem C7_witness :
    (process_signatures exSigFromStr exFetch [] exPage
      = some ([("SIGA", exDetail)], ["SIGA", "SIGB"]))
    ∧ (["SIGA", "SIGB"]
        = exPage.reverse.filterMap (fun i => exSigFromStr i.signature)
      ∧ ∀ i ∈ exPage, (exSigFromStr i.signature).isSome = true) :=
  ⟨by decide, C7_drain_order_reversed exSigFromStr exFetch [] exPage
    [("SIGA", exDetail)] ["SIGA", "SIGB"] (by decide)⟩

/-- C4 counterexample: the claim says a query whose id (or day) parameter
fails to parse is answered with an `InvalidArgument` error scoped to the
single request, leaving the query-serving path and ingestion unaffected.
In the code the `.expect(..)` panics while the store mutex guard (taken
at api.rs line 28, before the parses) is held: the request with the
unparsable id "***" gets no reply at all and poisons the mutex, after
which a perfectly well-formed request aborts too and the ingestion
loop's own `lock().unwrap()` calls panic — nothing about the failure is
scoped to the one request. -/
theorem C4_counterexample :
    api_request exSigFromStr exParseDay ⟨[], false⟩ ⟨some "***", none⟩
      = (none, ⟨[], true⟩)
    ∧ api_request exSigFromStr exParseDay ⟨[], true⟩ ⟨some "SIGA", none⟩
      = (none, ⟨[], true⟩)
    ∧ aggregator_insert ⟨[], true⟩ "SIGA" exDetail = none
    ∧ update_last_signature_locked ⟨[], true⟩ = none := by
  refine ⟨by decide, by decide, by decide, by decide⟩

/-- C4 amended: for every request whose id or day parameter fails to parse,
the handler panics at the `.expect(..)` call while holding the store
mutex guard: that request gets no reply (no `InvalidArgument` result is
ever constructed) and the mutex is poisoned, after which every
subsequent `lock().unwrap()` — the ingestion loop's insert and cursor
update as well as the lock in later API requests — panics too; the
failure is not scoped to the single request, and ingestion is
affected. -/
theorem C4_parse_failure_poisons (sigFromStr : String → Option Signature)
    (parseDay : String → Option NaiveDate) (store : Store) (s : String) :
    (sigFromStr s = none → ∀ dayOpt,
      api_request sigFromStr parseDay ⟨store, false⟩ ⟨some s, dayOpt⟩
        = (none, ⟨store, true⟩))
    ∧ (parseDay s = none →
      api_request sigFromStr parseDay ⟨store, false⟩ ⟨none, some s⟩
        = (none, ⟨store, true⟩))
    ∧ (∀ params, api_request sigFromStr parseDay ⟨store, true⟩ params
        = (none, ⟨store, true⟩))
    ∧ (∀ sig d, aggregator_insert ⟨store, true⟩ sig d = none)
    ∧ update_last_signature_locked ⟨store, true⟩ = none := by
  refine ⟨?_, ?_, fun params => rfl, fun sig d => rfl, rfl⟩
  · intro h dayOpt
    simp [api_request, create_api_handler, h]
  · intro h
    simp [api_request, create_api_handler, h]

/-- C4 amended witness: the unparsable id "***" aborts its request with no
reply and leaves the mutex poisoned. -/
theorem C4_witness :
    exSigFromStr "***" = none
    ∧ api_request exSigFromStr exParseDay ⟨[], false⟩ ⟨some "***", none⟩
        = (none, ⟨[], true⟩) :=
  ⟨by decide,
   (C4_parse_failure_poisons exSigFromStr exParseDay [] "***").1 (by decide) none⟩

/-- C6 counterexample: the claim quantifies over every store state, but a
store holding a record whose timestamp lies outside chrono's
representable range (here 10^16 seconds, a valid signed 64-bit value)
makes the day branch's `DateTime::from_timestamp(..).unwrap()` (api.rs
lines 46-47) panic: the query aborts with no reply instead of returning
the (here empty) matching subset for the requested date. -/
theorem C6_counterexample :
    create_api_handler exSigFromStr exParseDay
      [("SIGA", ⟨"S1", "R1", "D1", 10000000000000000⟩)]
      ⟨none, some "03/05/2021"⟩ = none := by decide

/-- C6 amended: for every store state all of whose stored timestamps lie in
chrono's representable range (about ±262,000 years from the common era)
and every date D, the day query returns exactly the subset of stored
records whose timestamp converted to a UTC calendar date equals D, with
HTTP status 200, and returns the empty sequence when no stored record
matches D; a store holding a timestamp outside that range instead makes
the day query panic at the `.unwrap()` and answer nothing. -/
theorem C6_day_query_exact (sigFromStr : String → Option Signature)
    (parseDay : String → Option NaiveDate)
    (store : Store) (D : NaiveDate) (dayStr : String)
    (hparse : parseDay dayStr = some D)
    (hrange : ∀ t ∈ store.values, (from_timestamp_date t.timestamp).isSome = true) :
    ∃ l, create_api_handler sigFromStr parseDay store ⟨none, some dayStr⟩
        = some (.jsonList l)
      ∧ (∀ t, t ∈ l ↔ t ∈ store.values ∧ from_timestamp_date t.timestamp = some D)
      ∧ ((∀ t ∈ store.values, ¬ from_timestamp_date t.timestamp = some D) → l = [])
      ∧ (Reply.jsonList l).statusCode = 200 := by
  refine ⟨store.values.filter
    (fun t => decide (from_timestamp_date t.timestamp = some D)), ?_, ?_, ?_, rfl⟩
  · simp only [create_api_handler, hparse]
    rw [if_pos (List.all_eq_true.mpr hrange)]
  · intro t
    rw [List.mem_filter]
    simp only [decide_eq_true_eq]
  · intro hnone
    rw [List.filter_eq_nil_iff]
    intro t ht
    simp only [decide_eq_true_eq]
    exact hnone t ht

/-- C6 witness: a store holding one record timestamped 1620000000
(2021-05-03 UTC) answers the day query for 03/05/2021 with exactly that
record. -/
theorem C6_witness :
    exParseDay "03/05/2021" = some ⟨2021, 5, 3⟩
    ∧ (∀ t ∈ Store.values [("SIGA", exDetail)],
        (from_timestamp_date t.timestamp).isSome = true)
    ∧ ∃ l, create_api_handler exSigFromStr exParseDay [("SIGA", exDetail)]
          ⟨none, some "03/05/2021"⟩ = some (.jsonList l)
        ∧ (∀ t, t ∈ l ↔ t ∈ Store.values [("SIGA", exDetail)]
            ∧ from_timestamp_date t.timestamp = some ⟨2021, 5, 3⟩)
        ∧ ((∀ t ∈ Store.values [("SIGA", exDetail)],
            ¬ from_timestamp_date t.timestamp = some ⟨2021, 5, 3⟩) → l = [])
        ∧ (Reply.jsonList l).statusCode = 200 :=
  ⟨by decide, by decide,
   C6_day_query_exact exSigFromStr exParseDay [("SIGA", exDetail)] ⟨2021, 5, 3⟩
     "03/05/2021" (by decide) (by decide)⟩

/-- C8: for a request whose id parses to a well-formed signature, the
handler answers 200 with the JSON-encoded stored detail when the
signature is present, and 200 with JSON `null` (an explicit not-found
reply, never an error) when it is absent. -/
theorem C8_id_lookup (sigFromStr : String → Option Signature)
    (parseDay : String → Option NaiveDate) (store : Store)
    (idStr : String) (sig : Signature) (dayOpt : Option String)
    (hwf : sigFromStr idStr = some sig) :
    (store.get sig = none →
      create_api_handler sigFromStr parseDay store ⟨some idStr, dayOpt⟩
        = some .jsonNull ∧ Reply.jsonNull.statusCode = 200)
    ∧ ∀ d, store.get sig = some d →
      create_api_handler sigFromStr parseDay store ⟨some idStr, dayOpt⟩
        = some (.jsonDetail d) ∧ (Reply.jsonDetail d).statusCode = 200 := by
  constructor
  · intro habs
    refine ⟨?_, rfl⟩
    simp [create_api_handler, hwf, habs]
  · intro d hd
    refine ⟨?_, rfl⟩
    simp [create_api_handler, hwf, hd]

/-- C8 witness: "SIGB" is well-formed but absent (JSON null), "SIGA" is
present (its stored detail). -/
theorem C8_witness :
    exSigFromStr "SIGB" = some "SIGB"
    ∧ Store.get [("SIGA", exDetail)] "SIGB" = none
    ∧ create_api_handler exSigFromStr exParseDay [("SIGA", exDetail)]
        ⟨some "SIGB", none⟩ = some .jsonNull
    ∧ Store.get [("SIGA", exDetail)] "SIGA" = some exDetail
    ∧ create_api_handler exSigFromStr exParseDay [("SIGA", exDetail)]
        ⟨some "SIGA", none⟩ = some (.jsonDetail exDetail) :=
  ⟨by decide, by decide,
   ((C8_id_lookup exSigFromStr exParseDay [("SIGA", exDetail)] "SIGB" "SIGB" none
      (by decide)).1 (by decide)).1,
   by decide,
   ((C8_id_lookup exSigFromStr exParseDay [("SIGA", exDetail)] "SIGA" "SIGA" none
      (by decide)).2 exDetail (by decide)).1⟩

/-- C9: a fetched transaction with absent block time and the expected
JSON/raw shape is stored with timestamp exactly 0
(`block_time.unwrap_or(0)`), and — 0 converting to the UTC date
1970-01-01 — such a record is reported by a day query for 01/01/1970
rather than being rejected or skipped. -/
theorem C9_absent_block_time_zero (sigFromStr : String → Option Signature)
    (parseDay : String → Option NaiveDate) (store : Store)
    (sig : Signature) (a b : String) (rest : List String)
    (i0 : UiCompiledInstruction) (irest : List UiCompiledInstruction)
    (hrange : ∀ t ∈ store.values, (from_timestamp_date t.timestamp).isSome = true) :
    fetch_and_process_transaction store sig
      (FetchResponse.ok ⟨none,
        ⟨EncodedTransaction.json ⟨UiMessage.raw ⟨a :: b :: rest, i0 :: irest⟩⟩⟩⟩)
      = .ok (store.insert sig ⟨a, b, i0.data, 0⟩)
    ∧ from_timestamp_date 0 = some ⟨1970, 1, 1⟩
    ∧ ∀ dayStr, parseDay dayStr = some ⟨1970, 1, 1⟩ →
        ∃ l, create_api_handler sigFromStr parseDay
            (store.insert sig ⟨a, b, i0.data, 0⟩) ⟨none, some dayStr⟩
            = some (.jsonList l)
          ∧ (⟨a, b, i0.data, 0⟩ : TransactionDetails) ∈ l := by
  refine ⟨rfl, by decide, ?_⟩
  intro dayStr hday
  have hrange' : ∀ t ∈ (store.insert sig ⟨a, b, i0.data, 0⟩).values,
      (from_timestamp_date t.timestamp).isSome = true := by
    intro t ht
    rcases Store.mem_values_insert store sig ⟨a, b, i0.data, 0⟩ t ht with h | rfl
    · exact hrange t h
    · have hzero : (from_timestamp_date (0 : Int)).isSome = true := by decide
      exact hzero
  refine ⟨(store.insert sig ⟨a, b, i0.data, 0⟩).values.filter
    (fun t => decide (from_timestamp_date t.timestamp = some ⟨1970, 1, 1⟩)), ?_, ?_⟩
  · simp only [create_api_handler, hday]
    rw [if_pos (List.all_eq_true.mpr hrange')]
  · rw [List.mem_filter]
    refine ⟨Store.self_mem_values_insert store sig ⟨a, b, i0.data, 0⟩, ?_⟩
    have hzero : decide (from_timestamp_date (0 : Int)
        = some (NaiveDate.mk 1970 1 1)) = true := by decide
    exact hzero

/-- C9 witness: a concrete no-block-time record lands in the store with
timestamp 0 and shows up under the day query for 01/01/1970. -/
theorem C9_witness :
    (∀ t ∈ Store.values ([] : Store), (from_timestamp_date t.timestamp).isSome = true)
    ∧ exParseDay "01/01/1970" = some ⟨1970, 1, 1⟩
    ∧ ∃ l, create_api_handler exSigFromStr exParseDay
          (Store.insert [] "SIGA" ⟨"S1", "R1", "D1", 0⟩) ⟨none, some "01/01/1970"⟩
          = some (.jsonList l)
        ∧ (⟨"S1", "R1", "D1", 0⟩ : TransactionDetails) ∈ l :=
  ⟨by decide, by decide,
   (C9_absent_block_time_zero exSigFromStr exParseDay [] "SIGA" "S1" "R1" []
     ⟨"D1"⟩ [] (by decide)).2.2 "01/01/1970" (by decide)⟩

/-- C10: when a request supplies both an id and a day parameter, the
response is determined solely by the id lookup: the handler behaves
exactly as if no day parameter were present, and its reply (when one is
produced) is never the day branch's list nor the invalid-parameters
sentinel string. -/
theorem C10_id_param_takes_precedence (sigFromStr : String → Option Signature)
    (parseDay : String → Option NaiveDate) (store : Store)
    (idStr dayStr : String) :
    create_api_handler sigFromStr parseDay store ⟨some idStr, some dayStr⟩
      = create_api_handler sigFromStr parseDay store ⟨some idStr, none⟩
    ∧ ∀ r, create_api_handler sigFromStr parseDay store ⟨some idStr, some dayStr⟩
        = some r →
        (∀ l, r ≠ .jsonList l) ∧ r ≠ .jsonString "Invalid query parameters" := by
  refine ⟨rfl, ?_⟩
  intro r hr
  simp only [create_api_handler] at hr
  cases hs : sigFromStr idStr with
  | none => rw [hs] at hr; exact absurd hr (by simp)
  | some sig =>
    rw [hs] at hr
    cases hg : store.get sig with
    | some d =>
      simp only [hg] at hr
      obtain rfl := Option.some.inj hr
      exact ⟨fun l => by simp, by simp⟩
    | none =>
      simp only [hg] at hr
      obtain rfl := Option.some.inj hr
      exact ⟨fun l => by simp, by simp⟩

/-- C10 witness: with both parameters supplied, the reply equals the
id-only reply and is the stored detail, not a list or the sentinel. -/
theorem C10_witness :
    (create_api_handler exSigFromStr exParseDay [("SIGA", exDetail)]
        ⟨some "SIGA", some "03/05/2021"⟩
      = create_api_handler exSigFromStr exParseDay [("SIGA", exDetail)]
        ⟨some "SIGA", none⟩)
    ∧ ((∀ l, Reply.jsonDetail exDetail ≠ .jsonList l)
      ∧ Reply.jsonDetail exDetail ≠ .jsonString "Invalid query parameters") :=
  ⟨(C10_id_param_takes_precedence exSigFromStr exParseDay [("SIGA", exDetail)]
      "SIGA" "03/05/2021").1,
   (C10_id_param_takes_precedence exSigFromStr exParseDay [("SIGA", exDetail)]
      "SIGA" "03/05/2021").2 (Reply.jsonDetail exDetail) (by decide)⟩

end SolanaTxAggregator
